import Mathlib

/-!
Verification development for the CHAMBAI math-worksheet grading app.

The embedded code comes from:
* `src/route.ts` — the HTTP `POST` handler: request-body check, data-URL
  prefix stripping, the Gemini request (schema, response MIME type,
  temperature), the defensive cleanup of the model output
  (`replace(/```json/g, '').replace(/```/g, '').trim()`) followed by
  `JSON.parse`, and the success / error responses.
* `src/unnamed/part_000` (ImageUploader) — media-type gate, resize to a
  1024-pixel maximum dimension with `Math.round`, JPEG re-encoding at
  quality 0.8, and the single data-URL handed out as both transport
  payload and display source.
* `src/unnamed/part_001` (page) — `getBoxStyle`, the 0–1000 → percentage
  coordinate mapper.

JavaScript strings are modelled as `List Char`; `JSON.parse` is modelled
by an executable recursive-descent parser (`Json.parse`) for the JSON
grammar with integer numerals (the grading contract only uses integers,
booleans, strings, arrays and objects; fractional and exponent numerals
are rejected rather than approximated, and a `\u` escape denoting a
surrogate half is outside the model).  Objects are kept as ordered
key/value lists.  All definitions are structurally recursive so that the
kernel can evaluate them on concrete inputs.
-/

/-- JSON values, as produced by `JSON.parse` for the grading contract.
Numbers are integer-valued, objects are ordered key/value lists. -/
inductive Json where
  | null
  | bool (b : Bool)
  | num (n : Int)
  | str (s : List Char)
  | arr (xs : List Json)
  | obj (kvs : List (List Char × Json))

/-- JSON insignificant whitespace (RFC 8259: space, tab, line feed,
carriage return). -/
def isJsonWs (c : Char) : Bool :=
  c = ' ' || c = '\t' || c = '\n' || c = '\r'

/-- Drop leading JSON whitespace. -/
def skipWs : List Char → List Char
  | [] => []
  | c :: cs => if isJsonWs c then skipWs cs else c :: cs

/-- ASCII decimal digit test. -/
def isDigitCh (c : Char) : Bool := '0' ≤ c && c ≤ '9'

/-- Accumulate a run of decimal digits into a natural number. -/
def digitsAux : Nat → List Char → Nat × List Char
  | acc, [] => (acc, [])
  | acc, c :: cs =>
    if isDigitCh c then digitsAux (acc * 10 + (c.toNat - 48)) cs
    else (acc, c :: cs)

/-- Parse a non-negative JSON integer numeral (no leading zeros; a
fractional part or exponent makes the numeral fall outside the integer
model and is rejected). -/
def parseNumPos : List Char → Option (Nat × List Char)
  | [] => none
  | c :: cs =>
    if c = '0' then
      match cs with
      | [] => some (0, [])
      | d :: _ =>
        if isDigitCh d || d = '.' || d = 'e' || d = 'E' then none
        else some (0, cs)
    else if isDigitCh c then
      match digitsAux (c.toNat - 48) cs with
      | (n, rest) =>
        match rest with
        | [] => some (n, [])
        | d :: _ =>
          if d = '.' || d = 'e' || d = 'E' then none
          else some (n, rest)
    else none

/-- Parse a JSON integer numeral with optional minus sign. -/
def parseNumber : List Char → Option (Json × List Char)
  | '-' :: cs =>
    match parseNumPos cs with
    | some (n, r) => some (Json.num (-(n : Int)), r)
    | none => none
  | cs =>
    match parseNumPos cs with
    | some (n, r) => some (Json.num (n : Int), r)
    | none => none

/-- Value of a hexadecimal digit. -/
def hexVal (c : Char) : Option Nat :=
  if '0' ≤ c && c ≤ '9' then some (c.toNat - 48)
  else if 'a' ≤ c && c ≤ 'f' then some (c.toNat - 87)
  else if 'A' ≤ c && c ≤ 'F' then some (c.toNat - 55)
  else none

/-- Single-character JSON string escapes. -/
def escChar (e : Char) : Option Char :=
  if e = '"' then some '"'
  else if e = '\\' then some '\\'
  else if e = '/' then some '/'
  else if e = 'b' then some (Char.ofNat 8)
  else if e = 'f' then some (Char.ofNat 12)
  else if e = 'n' then some '\n'
  else if e = 'r' then some '\r'
  else if e = 't' then some '\t'
  else none

/-- Parse the body of a JSON string after the opening quote, returning
the decoded characters and the input after the closing quote. -/
def parseStringBody : List Char → Option (List Char × List Char)
  | [] => none
  | '"' :: rest => some ([], rest)
  | '\\' :: rest =>
    match rest with
    | [] => none
    | e :: rest2 =>
      if e = 'u' then
        match rest2 with
        | h1 :: h2 :: h3 :: h4 :: rest3 =>
          match hexVal h1, hexVal h2, hexVal h3, hexVal h4 with
          | some a, some b, some c, some d =>
            match parseStringBody rest3 with
            | some (s, r) => some (Char.ofNat (((a * 16 + b) * 16 + c) * 16 + d) :: s, r)
            | none => none
          | _, _, _, _ => none
        | _ => none
      else
        match escChar e with
        | some c =>
          match parseStringBody rest2 with
          | some (s, r) => some (c :: s, r)
          | none => none
        | none => none
  | c :: rest =>
    if c.toNat < 32 then none
    else
      match parseStringBody rest with
      | some (s, r) => some (c :: s, r)
      | none => none

/-- Left brace character (written via its code point). -/
def lbrace : Char := Char.ofNat 123

/-- Right brace character (written via its code point). -/
def rbrace : Char := Char.ofNat 125

/-- Parse one or more comma-separated array elements up to the closing
bracket, given a parser `pv` for a single value. -/
def parseElemsAux (pv : List Char → Option (Json × List Char)) :
    Nat → List Char → Option (List Json × List Char)
  | 0, _ => none
  | fuel + 1, cs =>
    match pv cs with
    | none => none
    | some (v, rest) =>
      match skipWs rest with
      | ',' :: r2 =>
        match parseElemsAux pv fuel r2 with
        | some (vs, r) => some (v :: vs, r)
        | none => none
      | ']' :: r2 => some ([v], r2)
      | _ => none

/-- Parse one or more comma-separated object members up to the closing
brace, given a parser `pv` for a single value. -/
def parseMembersAux (pv : List Char → Option (Json × List Char)) :
    Nat → List Char → Option (List (List Char × Json) × List Char)
  | 0, _ => none
  | fuel + 1, cs =>
    match skipWs cs with
    | '"' :: kr =>
      match parseStringBody kr with
      | none => none
      | some (k, rest) =>
        match skipWs rest with
        | ':' :: vr =>
          match pv vr with
          | none => none
          | some (v, rest2) =>
            match skipWs rest2 with
            | d :: r2 =>
              if d = ',' then
                match parseMembersAux pv fuel r2 with
                | some (ms, r) => some ((k, v) :: ms, r)
                | none => none
              else if d = rbrace then some ([(k, v)], r2)
              else none
            | [] => none
        | _ => none
    | _ => none

/-- Recursive-descent parser for one JSON value; the fuel bounds the
nesting depth and is decremented on entering a composite value, so
`length + 1` fuel always suffices. -/
def parseVal : Nat → List Char → Option (Json × List Char)
  | 0 => fun _ => none
  | fuel + 1 => fun cs =>
    match skipWs cs with
    | [] => none
    | 'n' :: 'u' :: 'l' :: 'l' :: rest => some (Json.null, rest)
    | 't' :: 'r' :: 'u' :: 'e' :: rest => some (Json.bool true, rest)
    | 'f' :: 'a' :: 'l' :: 's' :: 'e' :: rest => some (Json.bool false, rest)
    | '"' :: rest =>
      match parseStringBody rest with
      | some (s, r) => some (Json.str s, r)
      | none => none
    | '[' :: rest =>
      match skipWs rest with
      | ']' :: r => some (Json.arr [], r)
      | _ =>
        match parseElemsAux (parseVal fuel) fuel rest with
        | some (vs, r) => some (Json.arr vs, r)
        | none => none
    | c :: rest =>
      if c = lbrace then
        match skipWs rest with
        | d :: r =>
          if d = rbrace then some (Json.obj [], r)
          else
            match parseMembersAux (parseVal fuel) fuel rest with
            | some (ms, r2) => some (Json.obj ms, r2)
            | none => none
        | [] => none
      else if c = '-' || isDigitCh c then parseNumber (c :: rest)
      else none

/-- Model of JavaScript `JSON.parse` on the integer-numeral JSON
fragment: parse one value and require only whitespace to remain. -/
def Json.parse (cs : List Char) : Option Json :=
  match parseVal (cs.length + 1) cs with
  | some (j, rest) => if skipWs rest = [] then some j else none
  | none => none

/-- `JSON.parse` applied to a Lean string. -/
def parseJsonStr (s : String) : Option Json := Json.parse s.data

example : parseJsonStr "[]" = some (Json.arr []) := by rfl
example : parseJsonStr " [ 1 , -2 ] " =
    some (Json.arr [Json.num 1, Json.num (-2)]) := by rfl
example : parseJsonStr "\x7b\"a\":true\x7d" =
    some (Json.obj [("a".data, Json.bool true)]) := by rfl
example : parseJsonStr "" = none := by rfl
example : parseJsonStr "[1,]" = none := by rfl
example : parseJsonStr "\"a\\nb\"" = some (Json.str ['a', '\n', 'b']) := by rfl
example : parseJsonStr "1.5" = none := by rfl
example : parseJsonStr "01" = none := by rfl

/-! ### The defensive cleanup in `src/route.ts`

`const cleanJson = outputText.replace(/```json/g, '').replace(/```/g, '').trim();`

`replace` with a global literal pattern and empty replacement scans left
to right and deletes every non-overlapping occurrence; `trim` removes
leading and trailing whitespace.  `removeAllAux` carries the number of
already-matched characters still to skip, so the recursion is structural
on the character list. -/

/-- Scan for pattern occurrences, skipping `k` characters already
consumed by a match. -/
def removeAllAux (pat : List Char) : Nat → List Char → List Char
  | _, [] => []
  | Nat.succ k, _ :: xs => removeAllAux pat k xs
  | 0, x :: xs =>
    if pat.isPrefixOf (x :: xs) then removeAllAux pat (pat.length - 1) xs
    else x :: removeAllAux pat 0 xs

/-- JavaScript `str.replace(/pat/g, '')` for a literal nonempty pattern:
delete every non-overlapping occurrence, scanning left to right. -/
def removeAll (pat l : List Char) : List Char := removeAllAux pat 0 l

/-- Whitespace removed by JavaScript `String.prototype.trim` (the code
points relevant to model output; the exotic Unicode space separators are
outside the model). -/
def isJsWs (c : Char) : Bool :=
  c = ' ' || c = '\t' || c = '\n' || c = '\r' ||
  c = Char.ofNat 11 || c = Char.ofNat 12 || c = Char.ofNat 160 || c = Char.ofNat 65279

/-- Drop leading JavaScript whitespace. -/
def trimLeft : List Char → List Char
  | [] => []
  | c :: cs => if isJsWs c then trimLeft cs else c :: cs

/-- JavaScript `String.prototype.trim`: drop leading and trailing
whitespace. -/
def trim (l : List Char) : List Char :=
  (trimLeft ((trimLeft l).reverse)).reverse

/-- The literal pattern of the first `replace` in `src/route.ts`. -/
def btJson : List Char := "```json".data

/-- The literal pattern of the second `replace` in `src/route.ts`. -/
def bt3 : List Char := "```".data

/-- The cleanup applied to the raw model output in `src/route.ts`:
remove every occurrence of ```` ```json ````, then every occurrence of
```` ``` ````, then trim. -/
def clean (outputText : List Char) : List Char :=
  trim (removeAll bt3 (removeAll btJson outputText))

/-- The parse step of `src/route.ts`: cleanup followed by `JSON.parse`.
`none` is the `ParseError` path (the `catch (parseError)` branch). -/
def parseClean (outputText : List Char) : Option Json :=
  Json.parse (clean outputText)

/-- The route's parser on a Lean string. -/
def parseRoute (outputText : String) : Option Json :=
  parseClean outputText.data

example : parseRoute "```json\n[]\n```" = some (Json.arr []) := by rfl
example : parseRoute "  [true] " = some (Json.arr [Json.bool true]) := by rfl
example : parseRoute "" = none := by rfl
example : parseRoute "\x7b\x7d" = some (Json.obj []) := by rfl

/-! ### The `POST` handler of `src/route.ts` -/

/-- Outcome of the external `ai.models.generateContent` call: either the
response text, or a thrown error with an optional `message`. -/
inductive InferOutcome where
  | ok (text : String)
  | exn (msg : Option String)

/-- A response body produced by the handler: `{ results }` or
`{ error }`. -/
inductive RouteBody where
  | results (j : Json)
  | error (msg : String)

/-- The inference request assembled in `src/route.ts`: model name, inline
image part (MIME type and the base64 payload extracted by
`image.split(',')[1]`, which is `undefined` when the string has no
comma), the user prompt, and the generation config (response MIME type,
output schema, temperature). -/
structure GenRequest where
  model : String
  mimeType : String
  payload : Option (List Char)
  prompt : String
  responseMimeType : String
  temperature : ℚ
  schemaTopType : String
  itemType : String
  itemFields : List (String × String)
  itemRequired : List String

/-- JavaScript `String.prototype.split` with a single-character
separator. -/
def jsSplit (c : Char) : List Char → List (List Char)
  | [] => [[]]
  | x :: xs =>
    match jsSplit c xs with
    | [] => [[]]
    | h :: t => if x = c then [] :: h :: t else (x :: h) :: t

/-- Index `[1]` of a JavaScript array: `undefined` (`none`) when the
array has fewer than two elements. -/
def elem1? : List (List Char) → Option (List Char)
  | _ :: x :: _ => some x
  | _ => none

/-- `const base64Data = image.split(',')[1];` from `src/route.ts`. -/
def base64Data (image : String) : Option (List Char) :=
  elem1? (jsSplit ',' image.data)

/-- The property list of `gradingSchema.items` in `src/route.ts`, with
the declared `Type` of each property. -/
def gradingSchemaFields : List (String × String) :=
  [("lineNumber", "INTEGER"), ("latex", "STRING"), ("isCorrect", "BOOLEAN"),
   ("explanation", "STRING"), ("boundingBox", "ARRAY")]

/-- The `required` list of `gradingSchema.items` in `src/route.ts`. -/
def gradingSchemaRequired : List String :=
  ["lineNumber", "latex", "isCorrect", "explanation", "boundingBox"]

/-- The request built by the handler for a given request-body `image`
string, mirroring the `generateContent` call in `src/route.ts`. -/
def buildRequest (image : String) : GenRequest :=
  ⟨"gemini-2.0-flash-exp", "image/jpeg", base64Data image,
   "Grade this math problem. Identify lines, check correctness, and provide bounding boxes.",
   "application/json", 0.1, "ARRAY", "OBJECT",
   gradingSchemaFields, gradingSchemaRequired⟩

/-- JavaScript truthiness test `!image` for the request body's `image`
field: absent (or `null`) and the empty string are falsy. -/
def isFalsy : Option String → Bool
  | none => true
  | some s => s.data.isEmpty

/-- `error.message || 'Internal Server Error'`: JavaScript `||` falls
through on a missing or empty message. -/
def jsMsgOr : Option String → String
  | none => "Internal Server Error"
  | some m => if m.data.isEmpty then "Internal Server Error" else m

/-- The `POST` handler of `src/route.ts`.  `image` is the request body's
`image` field; `infer` models the external inference boundary.  Returns
the HTTP status and the JSON body. -/
def POST (image : Option String) (infer : GenRequest → InferOutcome) :
    Nat × RouteBody :=
  if isFalsy image then (400, RouteBody.error "No image data provided")
  else
    match infer (buildRequest (image.getD "")) with
    | InferOutcome.exn m => (500, RouteBody.error (jsMsgOr m))
    | InferOutcome.ok text =>
      match parseRoute text with
      | none => (500, RouteBody.error "Failed to parse AI response. Please try again.")
      | some j => (200, RouteBody.results j)

example : POST none (fun _ => InferOutcome.exn none) =
    (400, RouteBody.error "No image data provided") := by rfl
example : POST (some "d,A") (fun _ => InferOutcome.ok "[]") =
    (200, RouteBody.results (Json.arr [])) := by rfl
example : base64Data "data:image/jpeg;base64,AAAA" = some "AAAA".data := by rfl
example : base64Data "AAAA" = none := by rfl

/-! ### The ImageUploader (`src/unnamed/part_000`) and the coordinate
mapper (`src/unnamed/part_001`) -/

/-- `const MAX_WIDTH = 1024;` — maximum dimension for the model input. -/
def MAX_WIDTH : Nat := 1024

/-- `const QUALITY = 0.8;` — JPEG quality. -/
def QUALITY : ℚ := 0.8

/-- JavaScript `Math.round (num / den)` for non-negative operands and
positive `den`: round half up, i.e. `⌊num/den + 1/2⌋`. -/
def jsRound (num den : Nat) : Nat := (2 * num + den) / (2 * den)

/-- The resize block of `handleFileChange`: keep dimensions when the
image fits, otherwise clamp the larger dimension to `MAX_WIDTH` and
scale the other by the same ratio with `Math.round` (the height branch
uses the pre-clamp width, as in the source). -/
def resizeDims (w h : Nat) : Nat × Nat :=
  if h < w then
    if MAX_WIDTH < w then (MAX_WIDTH, jsRound (h * MAX_WIDTH) w) else (w, h)
  else
    if MAX_WIDTH < h then (jsRound (w * MAX_WIDTH) h, MAX_WIDTH) else (w, h)

/-- The artifact produced by `canvas.toDataURL(mime, quality)`: a
self-describing encoded payload carrying its format, quality and the
canvas dimensions.  The encoder itself is a browser boundary; the model
records exactly the arguments the code hands it. -/
structure EncodedImage where
  mime : String
  quality : ℚ
  width : Nat
  height : Nat
deriving DecidableEq

/-- Model of `canvas.toDataURL`. -/
def canvasToDataURL (mime : String) (q : ℚ) (w h : Nat) : EncodedImage :=
  ⟨mime, q, w, h⟩

/-- A user-selected file: declared media type and decoded pixel
dimensions. -/
structure UploadFile where
  type : String
  width : Nat
  height : Nat
deriving DecidableEq

/-- Result of `handleFileChange`: the early `return` after the
`alert('Please select a valid image file')` (no processing, no
callback), or the `onImageProcessed(payload, display)` call. -/
inductive UploadOutcome where
  | rejected
  | processed (payload display : EncodedImage)
deriving DecidableEq

/-- `handleFileChange` from `src/unnamed/part_000`: reject a non-image
media type before any processing; otherwise resize, re-encode as JPEG at
`QUALITY`, and hand the same data-URL out as payload and display
source. -/
def handleFileChange (f : UploadFile) : UploadOutcome :=
  if ("image/".data).isPrefixOf f.type.data then
    let wh := resizeDims f.width f.height
    let compressedBase64 := canvasToDataURL "image/jpeg" QUALITY wh.1 wh.2
    UploadOutcome.processed compressedBase64 compressedBase64
  else UploadOutcome.rejected

/-- Number of grading requests the page issues for an upload outcome:
`onImageProcessed` triggers exactly one `gradeImage` fetch
(`src/unnamed/part_001`), the early return triggers none. -/
def gradeCalls : UploadOutcome → Nat
  | UploadOutcome.rejected => 0
  | UploadOutcome.processed _ _ => 1

/-- The percentage-based overlay rectangle returned by `getBoxStyle`. -/
structure BoxStyle where
  top : ℚ
  left : ℚ
  height : ℚ
  width : ℚ
deriving DecidableEq

/-- `getBoxStyle` from `src/unnamed/part_001`: map a
`[ymin, xmin, ymax, xmax]` box on the 0–1000 scale to percentages. -/
def getBoxStyle : ℚ × ℚ × ℚ × ℚ → BoxStyle
  | (ymin, xmin, ymax, xmax) =>
    ⟨ymin / 10, xmin / 10, (ymax - ymin) / 10, (xmax - xmin) / 10⟩

example : resizeDims 2048 1024 = (1024, 512) := by rfl
example : resizeDims 800 600 = (800, 600) := by rfl
example : resizeDims 2049 2048 = (1024, 1024) := by rfl
example : getBoxStyle (0, 0, 1000, 1000) = ⟨0, 0, 100, 100⟩ := by
  simp only [getBoxStyle, BoxStyle.mk.injEq]
  norm_num

/-! ### Lemmas about the cleanup scan -/

/-- Occurrence test: some suffix of the list starts with `pat` (used
with nonempty patterns). -/
def containsPat (pat : List Char) : List Char → Bool
  | [] => false
  | x :: xs => pat.isPrefixOf (x :: xs) || containsPat pat xs

lemma containsPat_cons (pat : List Char) (x : Char) (xs : List Char) :
    containsPat pat (x :: xs) = (pat.isPrefixOf (x :: xs) || containsPat pat xs) := rfl

lemma removeAllAux_skip (pat : List Char) :
    ∀ (l : List Char) (k : Nat), removeAllAux pat k l = removeAllAux pat 0 (l.drop k)
  | [], k => by cases k <;> rfl
  | _ :: _, 0 => by rfl
  | x :: xs, k + 1 => by
    show removeAllAux pat k xs = _
    rw [removeAllAux_skip pat xs k]
    rfl

lemma removeAll_cons_neg (pat : List Char) (x : Char) (xs : List Char)
    (h : pat.isPrefixOf (x :: xs) = false) :
    removeAll pat (x :: xs) = x :: removeAll pat xs := by
  show removeAllAux pat 0 (x :: xs) = x :: removeAllAux pat 0 xs
  rw [removeAllAux]
  simp [h]

lemma removeAll_cons_pos (p : Char) (ps : List Char) (x : Char) (xs : List Char)
    (h : (p :: ps).isPrefixOf (x :: xs) = true) :
    removeAll (p :: ps) (x :: xs) = removeAll (p :: ps) (xs.drop ps.length) := by
  show removeAllAux (p :: ps) 0 (x :: xs) = _
  rw [removeAllAux]
  simp only [h, if_true]
  rw [show (p :: ps).length - 1 = ps.length from by simp]
  exact removeAllAux_skip (p :: ps) xs ps.length

lemma removeAll_of_not_contains (pat : List Char) :
    ∀ l : List Char, containsPat pat l = false → removeAll pat l = l
  | [], _ => rfl
  | x :: xs, h => by
    rw [containsPat_cons, Bool.or_eq_false_iff] at h
    rw [removeAll_cons_neg pat x xs h.1, removeAll_of_not_contains pat xs h.2]

lemma removeAll_pat_append (pat l : List Char) (hpat : pat ≠ []) :
    removeAll pat (pat ++ l) = removeAll pat l := by
  cases pat with
  | nil => exact absurd rfl hpat
  | cons p ps =>
    have hpre : (p :: ps).isPrefixOf (p :: (ps ++ l)) = true := by
      rw [show p :: (ps ++ l) = (p :: ps) ++ l from rfl]
      exact List.isPrefixOf_iff_prefix.mpr (List.prefix_append _ _)
    rw [List.cons_append, removeAll_cons_pos p ps p (ps ++ l) hpre, List.drop_left]

lemma removeAll_append_scan (pat rest : List Char) (m : List Char)
    (H : ∀ t, t <:+ m → t ≠ [] → pat.isPrefixOf (t ++ rest) = false) :
    removeAll pat (m ++ rest) = m ++ removeAll pat rest := by
  induction m with
  | nil => simp
  | cons x m' ih =>
    have hx : pat.isPrefixOf (x :: (m' ++ rest)) = false := by
      have := H (x :: m') (List.suffix_refl _) (by simp)
      simpa using this
    rw [List.cons_append, removeAll_cons_neg pat x (m' ++ rest) hx,
      ih (fun t ht hne => H t (ht.trans (List.suffix_cons x m')) hne)]
    rfl

lemma containsPat_of_append (pat : List Char) (hpat : pat ≠ []) (a b : List Char) :
    containsPat pat (a ++ (pat ++ b)) = true := by
  induction a with
  | nil =>
    cases pat with
    | nil => exact absurd rfl hpat
    | cons p ps =>
      rw [List.nil_append, List.cons_append, containsPat_cons]
      have : (p :: ps).isPrefixOf ((p :: ps) ++ b) = true :=
        List.isPrefixOf_iff_prefix.mpr (List.prefix_append _ _)
      rw [List.cons_append] at this
      simp [this]
  | cons x a' ih =>
    rw [List.cons_append, containsPat_cons, ih]
    simp

lemma containsPat_of_pre_suf (pat t m : List Char) (hpat : pat ≠ [])
    (hpre : pat <+: t) (hsuf : t <:+ m) : containsPat pat m = true := by
  obtain ⟨e, he⟩ := hpre
  obtain ⟨a, ha⟩ := hsuf
  have : m = a ++ (pat ++ e) := by rw [he, ha]
  rw [this]
  exact containsPat_of_append pat hpat a e

lemma containsPat_mono (p₁ p₂ : List Char) (hp : p₁ <+: p₂) :
    ∀ l : List Char, containsPat p₁ l = false → containsPat p₂ l = false
  | [], _ => rfl
  | x :: xs, h => by
    rw [containsPat_cons, Bool.or_eq_false_iff] at h
    rw [containsPat_cons, Bool.or_eq_false_iff]
    refine ⟨?_, containsPat_mono p₁ p₂ hp xs h.2⟩
    cases hb : p₂.isPrefixOf (x :: xs)
    · rfl
    · exfalso
      have h2 : p₂ <+: x :: xs := List.isPrefixOf_iff_prefix.mp hb
      have h1 : p₁.isPrefixOf (x :: xs) = true :=
        List.isPrefixOf_iff_prefix.mpr (hp.trans h2)
      rw [h.1] at h1
      exact Bool.false_ne_true h1

lemma isPrefixOf_eq_false_of_lt (pat l : List Char) (h : l.length < pat.length) :
    pat.isPrefixOf l = false := by
  cases hb : pat.isPrefixOf l
  · rfl
  · exfalso
    have := (List.isPrefixOf_iff_prefix.mp hb).length_le
    omega

lemma prefix_of_append_of_le (a t r : List Char) (h : a <+: t ++ r)
    (hl : a.length ≤ t.length) : a <+: t := by
  have h' : a = (t ++ r).take a.length := List.prefix_iff_eq_take.mp h
  have htake : (t ++ r).take a.length = t.take a.length := by
    rw [List.take_append_eq_append_take, Nat.sub_eq_zero_of_le hl, List.take_zero,
      List.append_nil]
  exact List.prefix_iff_eq_take.mpr (h'.trans htake)

lemma suffix_append_singleton (t l : List Char) (d : Char) (h : t <:+ l ++ [d]) :
    t = [] ∨ ∃ u, t = u ++ [d] ∧ u <:+ l := by
  rcases List.eq_nil_or_concat t with rfl | ⟨u, c, rfl⟩
  · exact Or.inl rfl
  · right
    obtain ⟨a, ha⟩ := h
    simp only [List.concat_eq_append] at ha ⊢
    rw [← List.append_assoc] at ha
    obtain ⟨h1, h2⟩ := List.append_inj' ha rfl
    obtain rfl : c = d := by simpa using h2
    exact ⟨u, rfl, ⟨a, h1⟩⟩

lemma isPrefixOf_cons_eq_false (p : Char) (ps : List Char) (d : Char) (l : List Char)
    (h : d ∉ p :: ps) : (p :: ps).isPrefixOf (d :: l) = false := by
  have hpd : (p == d) = false := by
    simp only [beq_eq_false_iff_ne]
    intro e
    exact h (by simp [e])
  simp [List.isPrefixOf, hpd]

lemma isPrefixOf_cons₂_eq_false (p : Char) (ps : List Char) (c d : Char) (l : List Char)
    (h : d ∉ ps) (hps : ps ≠ []) : (p :: ps).isPrefixOf (c :: d :: l) = false := by
  cases ps with
  | nil => exact absurd rfl hps
  | cons q qs =>
    have inner : (q :: qs).isPrefixOf (d :: l) = false :=
      isPrefixOf_cons_eq_false q qs d l h
    have step : (p :: q :: qs).isPrefixOf (c :: d :: l) =
        ((p == c) && (q :: qs).isPrefixOf (d :: l)) := rfl
    rw [step, inner, Bool.and_false]

lemma containsPat_cons_not_mem (pat : List Char) (hpat : pat ≠ []) (d : Char)
    (h : d ∉ pat) (l : List Char) : containsPat pat (d :: l) = containsPat pat l := by
  cases pat with
  | nil => exact absurd rfl hpat
  | cons p ps =>
    rw [containsPat_cons, isPrefixOf_cons_eq_false p ps d l h, Bool.false_or]

lemma isPrefixOf_append_singleton (d : Char) :
    ∀ (t pat : List Char), d ∉ pat → pat.isPrefixOf (t ++ [d]) = pat.isPrefixOf t
  | [], pat, h => by
    cases pat with
    | nil => rfl
    | cons p ps =>
      rw [List.nil_append, isPrefixOf_cons_eq_false p ps d [] h]
      rfl
  | x :: t', pat, h => by
    cases pat with
    | nil => rfl
    | cons p ps =>
      have hrec := isPrefixOf_append_singleton d t' ps (fun hm => h (List.mem_cons_of_mem p hm))
      simp [List.isPrefixOf, hrec]

lemma containsPat_append_singleton (pat : List Char) (hpat : pat ≠ []) (d : Char)
    (h : d ∉ pat) : ∀ l : List Char, containsPat pat (l ++ [d]) = containsPat pat l
  | [] => by
    cases pat with
    | nil => exact absurd rfl hpat
    | cons p ps =>
      rw [List.nil_append, containsPat_cons, isPrefixOf_cons_eq_false p ps d [] h]
      rfl
  | x :: l' => by
    rw [List.cons_append, containsPat_cons, containsPat_cons,
      show x :: (l' ++ [d]) = (x :: l') ++ [d] from rfl,
      isPrefixOf_append_singleton d (x :: l') pat h,
      containsPat_append_singleton pat hpat d h l']

/-! ### Lemmas about `trim` and `split` -/

lemma trimLeft_cons_ws (c : Char) (h : isJsWs c = true) (l : List Char) :
    trimLeft (c :: l) = trimLeft l := by
  simp [trimLeft, h]

lemma trim_cons_ws (c : Char) (h : isJsWs c = true) (l : List Char) :
    trim (c :: l) = trim l := by
  unfold trim
  rw [trimLeft_cons_ws c h l]

lemma trimLeft_append_of_nil (a b : List Char) (h : trimLeft a = []) :
    trimLeft (a ++ b) = trimLeft b := by
  induction a with
  | nil => rfl
  | cons x a' ih =>
    cases hx : isJsWs x with
    | false =>
      exfalso
      rw [show trimLeft (x :: a') = x :: a' from by simp [trimLeft, hx]] at h
      exact List.cons_ne_nil x a' h
    | true =>
      rw [trimLeft_cons_ws x hx] at h
      rw [List.cons_append, trimLeft_cons_ws x hx, ih h]

lemma trimLeft_append_of_cons (a b : List Char) (x : Char) (xs : List Char)
    (h : trimLeft a = x :: xs) : trimLeft (a ++ b) = x :: (xs ++ b) := by
  induction a with
  | nil => exact absurd h (by simp [trimLeft])
  | cons y a' ih =>
    cases hy : isJsWs y with
    | false =>
      rw [show trimLeft (y :: a') = y :: a' from by simp [trimLeft, hy]] at h
      obtain ⟨rfl, rfl⟩ : y = x ∧ a' = xs := by simpa using h
      rw [List.cons_append]
      simp [trimLeft, hy]
    | true =>
      rw [trimLeft_cons_ws y hy] at h
      rw [List.cons_append, trimLeft_cons_ws y hy, ih h]

lemma trim_append_ws (l : List Char) (c : Char) (h : isJsWs c = true) :
    trim (l ++ [c]) = trim l := by
  cases htl : trimLeft l with
  | nil =>
    unfold trim
    rw [trimLeft_append_of_nil l [c] htl, htl,
      show trimLeft [c] = ([] : List Char) from by simp [trimLeft, h]]
  | cons x xs =>
    unfold trim
    rw [trimLeft_append_of_cons l [c] x xs htl, htl]
    have e1 : (x :: (xs ++ [c])).reverse = c :: (xs.reverse ++ [x]) := by simp
    have e2 : (x :: xs).reverse = xs.reverse ++ [x] := by simp
    rw [e1, e2, trimLeft_cons_ws c h]

lemma jsSplit_ne_nil (c : Char) (l : List Char) : jsSplit c l ≠ [] := by
  cases l with
  | nil => simp [jsSplit]
  | cons x xs =>
    cases hjs : jsSplit c xs with
    | nil => simp [jsSplit, hjs]
    | cons h t =>
      simp only [jsSplit, hjs]
      split <;> simp

lemma jsSplit_no_sep (c : Char) : ∀ l : List Char, c ∉ l → jsSplit c l = [l]
  | [], _ => rfl
  | x :: xs, h => by
    have hx : ¬ x = c := fun e => h (by simp [e])
    have ih := jsSplit_no_sep c xs (fun hm => h (List.mem_cons_of_mem x hm))
    simp [jsSplit, ih, hx]

lemma jsSplit_append_sep (c : Char) : ∀ (p rest : List Char), c ∉ p →
    jsSplit c (p ++ c :: rest) = p :: jsSplit c rest
  | [], rest, _ => by
    cases hjs : jsSplit c rest with
    | nil => exact absurd hjs (jsSplit_ne_nil c rest)
    | cons h t => simp [jsSplit, hjs]
  | x :: p', rest, hp => by
    have hx : ¬ x = c := fun e => hp (by simp [e])
    have ih := jsSplit_append_sep c p' rest (fun hm => hp (List.mem_cons_of_mem x hm))
    simp [jsSplit, ih, hx]

lemma base64Data_no_comma (img : String) (h : ',' ∉ img.data) :
    base64Data img = none := by
  unfold base64Data
  rw [jsSplit_no_sep ',' img.data h]
  rfl

lemma base64Data_dataUrl (p b : String) (hp : ',' ∉ p.data) (hb : ',' ∉ b.data) :
    base64Data (p ++ "," ++ b) = some b.data := by
  unfold base64Data
  have hdata : (p ++ "," ++ b).data = p.data ++ ',' :: b.data := by
    simp [String.data_append]
  rw [hdata, jsSplit_append_sep ',' p.data b.data hp, jsSplit_no_sep ',' b.data hb]
  rfl

/-! ### Fence-stripping facts -/

lemma bt3_ne_nil : bt3 ≠ [] := by decide

lemma btJson_ne_nil : btJson ≠ [] := by decide

lemma nl_not_mem_bt3 : '\n' ∉ bt3 := by decide

lemma bt3_isPrefix_btJson : bt3 <+: btJson := List.isPrefixOf_iff_prefix.mp (by rfl)

lemma isPrefixOf_false_head (pat : List Char) (hne : pat ≠ []) (d : Char)
    (h : d ∉ pat) (l : List Char) : pat.isPrefixOf (d :: l) = false := by
  cases pat with
  | nil => exact absurd rfl hne
  | cons p ps => exact isPrefixOf_cons_eq_false p ps d l h

lemma isPrefixOf_false_snd (pat : List Char) (h2 : 2 ≤ pat.length) (c d : Char)
    (h : d ∉ pat.drop 1) (l : List Char) : pat.isPrefixOf (c :: d :: l) = false := by
  cases pat with
  | nil => simp at h2
  | cons p ps =>
    apply isPrefixOf_cons₂_eq_false p ps c d l (by simpa using h)
    cases ps with
    | nil => simp at h2
    | cons q qs => simp

lemma containsPat_bt3_wrap (s : List Char) (hbt : containsPat bt3 s = false) :
    containsPat bt3 ('\n' :: (s ++ ['\n'])) = false := by
  rw [containsPat_cons_not_mem bt3 bt3_ne_nil '\n' nl_not_mem_bt3 (s ++ ['\n']),
    containsPat_append_singleton bt3 bt3_ne_nil '\n' nl_not_mem_bt3 s, hbt]

lemma scan_big_case (pat : List Char) (hbtpre : bt3 <+: pat) (s t : List Char)
    (hm : containsPat bt3 ('\n' :: (s ++ ['\n'])) = false)
    (ht : t <:+ ('\n' :: (s ++ ['\n']))) (h3 : 3 ≤ t.length) :
    pat.isPrefixOf (t ++ bt3) = false := by
  cases hb : pat.isPrefixOf (t ++ bt3) with
  | false => rfl
  | true =>
    exfalso
    have h1 : pat <+: t ++ bt3 := List.isPrefixOf_iff_prefix.mp hb
    have h2 : bt3 <+: t ++ bt3 := hbtpre.trans h1
    have h4 : bt3 <+: t := by
      apply prefix_of_append_of_le bt3 t bt3 h2
      have e3 : bt3.length = 3 := by decide
      omega
    have hc := containsPat_of_pre_suf bt3 t _ bt3_ne_nil h4 ht
    rw [hm] at hc
    exact Bool.false_ne_true hc

lemma fence_scan_btJson (s : List Char) (hbt : containsPat bt3 s = false) :
    ∀ t, t <:+ ('\n' :: (s ++ ['\n'])) → t ≠ [] →
      btJson.isPrefixOf (t ++ bt3) = false := by
  intro t ht _
  have hm := containsPat_bt3_wrap s hbt
  by_cases h3 : 3 ≤ t.length
  · exact scan_big_case btJson bt3_isPrefix_btJson s t hm ht h3
  · apply isPrefixOf_eq_false_of_lt
    have e1 : btJson.length = 7 := by decide
    have e2 : bt3.length = 3 := by decide
    rw [List.length_append, e1, e2]
    omega

lemma fence_scan_bt3 (s : List Char) (hbt : containsPat bt3 s = false) :
    ∀ t, t <:+ ('\n' :: (s ++ ['\n'])) → t ≠ [] →
      bt3.isPrefixOf (t ++ bt3) = false := by
  intro t ht hne
  have hm := containsPat_bt3_wrap s hbt
  by_cases h3 : 3 ≤ t.length
  · exact scan_big_case bt3 (List.prefix_refl bt3) s t hm ht h3
  · have ht' : t <:+ ('\n' :: s) ++ ['\n'] := by simpa using ht
    rcases suffix_append_singleton t ('\n' :: s) '\n' ht' with rfl | ⟨u, rfl, _⟩
    · exact absurd rfl hne
    · cases u with
      | nil =>
        simp only [List.nil_append, List.singleton_append]
        exact isPrefixOf_false_head bt3 bt3_ne_nil '\n' nl_not_mem_bt3 bt3
      | cons c1 u' =>
        cases u' with
        | nil =>
          have e : (([c1] ++ ['\n']) ++ bt3) = c1 :: '\n' :: bt3 := by simp
          rw [show ((c1 :: []) ++ ['\n']) = [c1] ++ ['\n'] from rfl, e]
          exact isPrefixOf_false_snd bt3 (by decide) c1 '\n' (by decide) bt3
        | cons c2 u'' =>
          exfalso
          apply h3
          rw [List.length_append]
          simp

lemma clean_no_fence (s : List Char) (hbt : containsPat bt3 s = false) :
    clean s = trim s := by
  unfold clean
  rw [removeAll_of_not_contains btJson s
      (containsPat_mono bt3 btJson bt3_isPrefix_btJson s hbt),
    removeAll_of_not_contains bt3 s hbt]

lemma clean_fencewrap (s : List Char) (hbt : containsPat bt3 s = false) :
    clean (btJson ++ (('\n' :: (s ++ ['\n'])) ++ bt3)) = trim s := by
  unfold clean
  rw [removeAll_pat_append btJson _ btJson_ne_nil,
    removeAll_append_scan btJson bt3 ('\n' :: (s ++ ['\n'])) (fence_scan_btJson s hbt),
    removeAll_of_not_contains btJson bt3 (by decide),
    removeAll_append_scan bt3 bt3 ('\n' :: (s ++ ['\n'])) (fence_scan_bt3 s hbt),
    show removeAll bt3 bt3 = ([] : List Char) from by rfl,
    List.append_nil,
    trim_cons_ws '\n' (by decide) (s ++ ['\n']),
    trim_append_ws s '\n' (by decide)]

/-! ### Observers used to compare parsed grading fields -/

/-- Look up a key in a parsed JSON object (first match). -/
def lookupKey : List (List Char × Json) → List Char → Option Json
  | [], _ => none
  | (k, v) :: rest, key => if k = key then some v else lookupKey rest key

/-- The `latex` string of the first element of a parsed grading array. -/
def firstLatex : Json → Option (List Char)
  | Json.arr (Json.obj kvs :: _) =>
    match lookupKey kvs "latex".data with
    | some (Json.str s) => some s
    | _ => none
  | _ => none

/-- C1: for raw model output that is a valid JSON array of grading
objects containing no triple backtick of its own, possibly wrapped in a
```json fence and/or surrounded by whitespace, the route's parser
returns exactly the value `JSON.parse` assigns to the raw (trimmed)
text — field values and array order untouched — and the fence-wrapped
input yields the identical result as the unwrapped input. -/
theorem parseRoute_preserves_valid_json (s : String) (j : Json)
    (hbt : containsPat bt3 s.data = false)
    (hp : Json.parse (trim s.data) = some j) :
    parseRoute s = some j ∧ parseRoute ("```json\n" ++ s ++ "\n```") = some j := by
  constructor
  · show Json.parse (clean s.data) = some j
    rw [clean_no_fence s.data hbt, hp]
  · show Json.parse (clean ("```json\n" ++ s ++ "\n```").data) = some j
    have hfd : ("```json\n" ++ s ++ "\n```").data
        = btJson ++ (('\n' :: (s.data ++ ['\n'])) ++ bt3) := by
      rw [String.data_append, String.data_append,
        show ("```json\n" : String).data = btJson ++ ['\n'] from rfl,
        show ("\n```" : String).data = '\n' :: bt3 from rfl]
      simp
    rw [hfd, clean_fencewrap s.data hbt, hp]

/-- The spec's minimal valid grading array. -/
def minimalRaw : String :=
  "[\x7b\"lineNumber\":1,\"latex\":\"2+2=4\",\"isCorrect\":true,\"explanation\":\"\",\"boundingBox\":[0,0,100,500]\x7d]"

/-- The JSON value of `minimalRaw`. -/
def jMinimal : Json :=
  Json.arr [Json.obj
    [("lineNumber".data, Json.num 1),
     ("latex".data, Json.str "2+2=4".data),
     ("isCorrect".data, Json.bool true),
     ("explanation".data, Json.str []),
     ("boundingBox".data,
       Json.arr [Json.num 0, Json.num 0, Json.num 100, Json.num 500])]]

/-- Witness for C1 at the spec's minimal grading array. -/
theorem parseRoute_preserves_valid_json_witness :
    containsPat bt3 minimalRaw.data = false ∧
    Json.parse (trim minimalRaw.data) = some jMinimal ∧
    (parseRoute minimalRaw = some jMinimal ∧
      parseRoute ("```json\n" ++ minimalRaw ++ "\n```") = some jMinimal) :=
  ⟨by rfl, by rfl,
    parseRoute_preserves_valid_json minimalRaw jMinimal (by rfl) (by rfl)⟩

/-- A valid grading array whose `latex` value carries a triple
backtick. -/
def backtickRawC1 : String :=
  "[\x7b\"lineNumber\":1,\"latex\":\"x```y\",\"isCorrect\":false,\"explanation\":\"ok\",\"boundingBox\":[1,2,3,4]\x7d]"

/-- Counterexample to C1 as stated: on a valid JSON array of grading
objects whose `latex` value contains a triple backtick, the route's
parser does not preserve the raw field values — the cleanup deletes the
backticks inside the string literal. -/
theorem parseRoute_not_field_preserving :
    Option.bind (parseJsonStr backtickRawC1) firstLatex = some "x```y".data ∧
    Option.bind (parseRoute backtickRawC1) firstLatex = some "xy".data ∧
    Option.bind (parseRoute backtickRawC1) firstLatex ≠
      Option.bind (parseJsonStr backtickRawC1) firstLatex :=
  ⟨by rfl, by rfl, by decide⟩

/-- A valid grading array whose `explanation` value carries a fenced
code block in the middle of the text. -/
def backtickRawC10 : String :=
  "[\x7b\"lineNumber\":2,\"latex\":\"a```b\",\"isCorrect\":true,\"explanation\":\"see ```json x``` here\",\"boundingBox\":[0,0,10,10]\x7d]"

/-- The `explanation` string of the first element of a parsed grading
array. -/
def firstExplanation : Json → Option (List Char)
  | Json.arr (Json.obj kvs :: _) =>
    match lookupKey kvs "explanation".data with
    | some (Json.str s) => some s
    | _ => none
  | _ => none

/-- C10: the cleanup removes every occurrence of ```` ```json ```` and
```` ``` ```` anywhere in the output, not only a wrapping fence: on a
valid JSON array whose `latex` and `explanation` strings contain triple
backticks, the parsed values differ from the raw JSON parsed
directly. -/
theorem cleanup_strips_inner_fences :
    Option.bind (parseJsonStr backtickRawC10) firstLatex = some "a```b".data ∧
    Option.bind (parseRoute backtickRawC10) firstLatex = some "ab".data ∧
    Option.bind (parseJsonStr backtickRawC10) firstExplanation =
      some "see ```json x``` here".data ∧
    Option.bind (parseRoute backtickRawC10) firstExplanation =
      some "see  x here".data ∧
    Option.bind (parseRoute backtickRawC10) firstLatex ≠
      Option.bind (parseJsonStr backtickRawC10) firstLatex :=
  ⟨by rfl, by rfl, by rfl, by rfl, by decide⟩

/-! ### Route-handler lemmas -/

lemma POST_not_falsy (img : String) (himg : isFalsy (some img) = false)
    (infer : GenRequest → InferOutcome) :
    POST (some img) infer =
      (match infer (buildRequest img) with
       | InferOutcome.exn m => (500, RouteBody.error (jsMsgOr m))
       | InferOutcome.ok text =>
         match parseRoute text with
         | none => (500, RouteBody.error "Failed to parse AI response. Please try again.")
         | some j => (200, RouteBody.results j)) := by
  unfold POST
  rw [himg]
  simp

lemma POST_exn (img : String) (himg : isFalsy (some img) = false) (m : Option String) :
    POST (some img) (fun _ => InferOutcome.exn m) = (500, RouteBody.error (jsMsgOr m)) := by
  rw [POST_not_falsy img himg]

lemma POST_ok_parse (img : String) (himg : isFalsy (some img) = false) (text : String) :
    POST (some img) (fun _ => InferOutcome.ok text) =
      (match parseRoute text with
       | none => (500, RouteBody.error "Failed to parse AI response. Please try again.")
       | some j => (200, RouteBody.results j)) := by
  rw [POST_not_falsy img himg]

/-- Counterexample to C2 as stated: a non-array JSON output (a bare
object) does not fail with a ParseError; it parses and is returned as
the results with status 200. -/
theorem parseRoute_accepts_non_array :
    parseRoute "\x7b\x7d" = some (Json.obj []) ∧
    POST (some "d,B") (fun _ => InferOutcome.ok "\x7b\x7d") =
      (200, RouteBody.results (Json.obj [])) :=
  ⟨by rfl, by rfl⟩

/-- C2 amended: only text rejected by the JSON parser (the empty string
included) takes the ParseError path, which responds 500 with the fixed
generic retry message, so the raw text is never part of the response;
but non-array JSON and arrays whose elements miss required fields parse
successfully and are returned unvalidated with status 200. -/
theorem parse_failure_paths (img bad : String)
    (himg : isFalsy (some img) = false)
    (hbad : parseRoute bad = none) :
    parseRoute "" = none ∧
    POST (some img) (fun _ => InferOutcome.ok bad) =
      (500, RouteBody.error "Failed to parse AI response. Please try again.") ∧
    parseRoute "\x7b\x7d" = some (Json.obj []) ∧
    parseRoute "[\x7b\x7d]" = some (Json.arr [Json.obj []]) ∧
    POST (some img) (fun _ => InferOutcome.ok "[\x7b\x7d]") =
      (200, RouteBody.results (Json.arr [Json.obj []])) := by
  refine ⟨by rfl, ?_, by rfl, by rfl, ?_⟩
  · rw [POST_ok_parse img himg bad, hbad]
  · rw [POST_ok_parse img himg "[\x7b\x7d]",
      show parseRoute "[\x7b\x7d]" = some (Json.arr [Json.obj []]) from by rfl]

/-- Witness for the amended C2. -/
theorem parse_failure_paths_witness :
    isFalsy (some "data:image/jpeg;base64,AA") = false ∧
    parseRoute "not json" = none ∧
    (parseRoute "" = none ∧
      POST (some "data:image/jpeg;base64,AA") (fun _ => InferOutcome.ok "not json") =
        (500, RouteBody.error "Failed to parse AI response. Please try again.") ∧
      parseRoute "\x7b\x7d" = some (Json.obj []) ∧
      parseRoute "[\x7b\x7d]" = some (Json.arr [Json.obj []]) ∧
      POST (some "data:image/jpeg;base64,AA") (fun _ => InferOutcome.ok "[\x7b\x7d]") =
        (200, RouteBody.results (Json.arr [Json.obj []]))) :=
  ⟨by rfl, by rfl,
    parse_failure_paths "data:image/jpeg;base64,AA" "not json" (by rfl) (by rfl)⟩

/-- Counterexample to C6 as stated: when the thrown error has no
message, the handler's generic fallback is the fixed string
"Internal Server Error", not a "failed to grade" message. -/
theorem post_fallback_message_cex :
    POST (some "d,A") (fun _ => InferOutcome.exn none) =
      (500, RouteBody.error "Internal Server Error") ∧
    ("Internal Server Error" : String) ≠ "failed to grade" :=
  ⟨by rfl, by decide⟩

/-- C6 amended: every failure responds with a `\x7b error \x7d` body —
status 400 with a fixed message when the image is missing or empty, 500
for inference and parse failures; an inference error carries the
boundary's message when available and otherwise the generic message
"Internal Server Error"; success responds 200 with `\x7b results \x7d`. -/
theorem post_response_contract (img good bad m : String) (j : Json)
    (himg : isFalsy (some img) = false) (hm : m.data.isEmpty = false)
    (hgood : parseRoute good = some j) (hbad : parseRoute bad = none) :
    (∀ infer, POST none infer = (400, RouteBody.error "No image data provided")) ∧
    (∀ infer, POST (some "") infer = (400, RouteBody.error "No image data provided")) ∧
    POST (some img) (fun _ => InferOutcome.exn (some m)) = (500, RouteBody.error m) ∧
    POST (some img) (fun _ => InferOutcome.exn none) =
      (500, RouteBody.error "Internal Server Error") ∧
    POST (some img) (fun _ => InferOutcome.ok bad) =
      (500, RouteBody.error "Failed to parse AI response. Please try again.") ∧
    POST (some img) (fun _ => InferOutcome.ok good) = (200, RouteBody.results j) ∧
    (∀ i infer, (POST i infer).1 = 200 ∨ (POST i infer).1 = 400 ∨
      (POST i infer).1 = 500) ∧
    (∀ i infer, (POST i infer).1 ≠ 200 →
      ∃ msg, (POST i infer).2 = RouteBody.error msg) := by
  refine ⟨fun _ => rfl, fun _ => rfl, ?_, ?_, ?_, ?_, ?_, ?_⟩
  · rw [POST_exn img himg (some m)]
    simp [jsMsgOr, hm]
  · rw [POST_exn img himg none]
    rfl
  · rw [POST_ok_parse img himg bad, hbad]
  · rw [POST_ok_parse img himg good, hgood]
  · intro i infer
    cases i with
    | none => right; left; rfl
    | some s =>
      cases hf : isFalsy (some s) with
      | true =>
        right; left
        unfold POST
        rw [hf]
        simp
      | false =>
        rw [POST_not_falsy s hf]
        cases infer (buildRequest s) with
        | exn m' => right; right; rfl
        | ok t =>
          cases hpt : parseRoute t with
          | none => right; right; simp [hpt]
          | some j' => left; simp [hpt]
  · intro i infer hne
    cases i with
    | none => exact ⟨"No image data provided", rfl⟩
    | some s =>
      cases hf : isFalsy (some s) with
      | true =>
        refine ⟨"No image data provided", ?_⟩
        unfold POST
        rw [hf]
        simp
      | false =>
        rw [POST_not_falsy s hf] at hne ⊢
        cases hi : infer (buildRequest s) with
        | exn m' => exact ⟨jsMsgOr m', rfl⟩
        | ok t =>
          rw [hi] at hne
          cases hpt : parseRoute t with
          | none =>
            refine ⟨"Failed to parse AI response. Please try again.", ?_⟩
            simp [hpt]
          | some j' =>
            exfalso
            apply hne
            simp [hpt]

/-- Witness for the amended C6. -/
theorem post_response_contract_witness :
    isFalsy (some "data:image/png;base64,BB") = false ∧
    ("boom" : String).data.isEmpty = false ∧
    parseRoute "[]" = some (Json.arr []) ∧
    parseRoute "" = none ∧
    ((∀ infer, POST none infer = (400, RouteBody.error "No image data provided")) ∧
      (∀ infer, POST (some "") infer = (400, RouteBody.error "No image data provided")) ∧
      POST (some "data:image/png;base64,BB") (fun _ => InferOutcome.exn (some "boom")) =
        (500, RouteBody.error "boom") ∧
      POST (some "data:image/png;base64,BB") (fun _ => InferOutcome.exn none) =
        (500, RouteBody.error "Internal Server Error") ∧
      POST (some "data:image/png;base64,BB") (fun _ => InferOutcome.ok "") =
        (500, RouteBody.error "Failed to parse AI response. Please try again.") ∧
      POST (some "data:image/png;base64,BB") (fun _ => InferOutcome.ok "[]") =
        (200, RouteBody.results (Json.arr [])) ∧
      (∀ i infer, (POST i infer).1 = 200 ∨ (POST i infer).1 = 400 ∨
        (POST i infer).1 = 500) ∧
      (∀ i infer, (POST i infer).1 ≠ 200 →
        ∃ msg, (POST i infer).2 = RouteBody.error msg)) :=
  ⟨by rfl, by rfl, by rfl, by rfl,
    post_response_contract "data:image/png;base64,BB" "[]" "" "boom" (Json.arr [])
      (by rfl) (by rfl) (by rfl) (by rfl)⟩

/-- C9: a non-empty image string without a comma is not rejected with
status 400: the extracted payload is `undefined` (`none`), the handler
still reaches the inference call, and an inference failure surfaces as
status 500. -/
theorem no_prefix_skips_400 (img : String) (infer : GenRequest → InferOutcome)
    (himg : isFalsy (some img) = false) (hc : ',' ∉ img.data) :
    (buildRequest img).payload = none ∧
    (POST (some img) infer).1 ≠ 400 ∧
    (∀ m, infer (buildRequest img) = InferOutcome.exn m →
      POST (some img) infer = (500, RouteBody.error (jsMsgOr m))) := by
  refine ⟨base64Data_no_comma img hc, ?_, ?_⟩
  · rw [POST_not_falsy img himg]
    cases infer (buildRequest img) with
    | exn m => simp
    | ok t =>
      cases hpt : parseRoute t with
      | none => simp [hpt]
      | some j => simp [hpt]
  · intro m hmeq
    rw [POST_not_falsy img himg, hmeq]

/-- Witness for C9. -/
theorem no_prefix_skips_400_witness :
    isFalsy (some "abc") = false ∧
    ',' ∉ ("abc" : String).data ∧
    ((buildRequest "abc").payload = none ∧
      (POST (some "abc") (fun _ => InferOutcome.exn none)).1 ≠ 400 ∧
      (∀ m, (fun _ => InferOutcome.exn none) (buildRequest "abc") = InferOutcome.exn m →
        POST (some "abc") (fun _ => InferOutcome.exn none) =
          (500, RouteBody.error (jsMsgOr m)))) :=
  ⟨by rfl, by decide,
    no_prefix_skips_400 "abc" (fun _ => InferOutcome.exn none) (by rfl) (by decide)⟩

/-! ### Request-builder and uploader claims -/

/-- C8: the grading request carries only the base64 payload portion of
the data-URL (the prefix before the comma is stripped), a structured
output schema declaring an array of objects with exactly the five
GradingResult fields all required, the JSON response-format directive,
and the fixed low temperature 0.1. -/
theorem request_payload_and_schema (p b : String)
    (hp : ',' ∉ p.data) (hb : ',' ∉ b.data) :
    (buildRequest (p ++ "," ++ b)).payload = some b.data ∧
    (buildRequest (p ++ "," ++ b)).schemaTopType = "ARRAY" ∧
    (buildRequest (p ++ "," ++ b)).itemType = "OBJECT" ∧
    (buildRequest (p ++ "," ++ b)).itemFields.map Prod.fst =
      ["lineNumber", "latex", "isCorrect", "explanation", "boundingBox"] ∧
    (buildRequest (p ++ "," ++ b)).itemRequired =
      ["lineNumber", "latex", "isCorrect", "explanation", "boundingBox"] ∧
    (buildRequest (p ++ "," ++ b)).responseMimeType = "application/json" ∧
    (buildRequest (p ++ "," ++ b)).temperature = 1 / 10 := by
  refine ⟨base64Data_dataUrl p b hp hb, rfl, rfl, by rfl, rfl, rfl, ?_⟩
  show (0.1 : ℚ) = 1 / 10
  norm_num

/-- Witness for C8 at a well-formed data-URL. -/
theorem request_payload_and_schema_witness :
    ',' ∉ ("data:image/jpeg;base64" : String).data ∧
    ',' ∉ ("iVBORw0KGgo" : String).data ∧
    ((buildRequest ("data:image/jpeg;base64" ++ "," ++ "iVBORw0KGgo")).payload =
        some ("iVBORw0KGgo" : String).data ∧
      (buildRequest ("data:image/jpeg;base64" ++ "," ++ "iVBORw0KGgo")).schemaTopType = "ARRAY" ∧
      (buildRequest ("data:image/jpeg;base64" ++ "," ++ "iVBORw0KGgo")).itemType = "OBJECT" ∧
      (buildRequest ("data:image/jpeg;base64" ++ "," ++ "iVBORw0KGgo")).itemFields.map Prod.fst =
        ["lineNumber", "latex", "isCorrect", "explanation", "boundingBox"] ∧
      (buildRequest ("data:image/jpeg;base64" ++ "," ++ "iVBORw0KGgo")).itemRequired =
        ["lineNumber", "latex", "isCorrect", "explanation", "boundingBox"] ∧
      (buildRequest ("data:image/jpeg;base64" ++ "," ++ "iVBORw0KGgo")).responseMimeType =
        "application/json" ∧
      (buildRequest ("data:image/jpeg;base64" ++ "," ++ "iVBORw0KGgo")).temperature = 1 / 10) :=
  ⟨by decide, by decide,
    request_payload_and_schema "data:image/jpeg;base64" "iVBORw0KGgo" (by decide) (by decide)⟩

/-- C7: a file whose declared media type does not start with "image/" is
rejected before any processing, and zero grading requests are issued for
it. -/
theorem non_image_rejected_before_inference (f : UploadFile)
    (h : ("image/".data).isPrefixOf f.type.data = false) :
    handleFileChange f = UploadOutcome.rejected ∧
    gradeCalls (handleFileChange f) = 0 := by
  have hfc : handleFileChange f = UploadOutcome.rejected := by
    unfold handleFileChange
    rw [h]
    simp
  exact ⟨hfc, by rw [hfc]; rfl⟩

/-- Witness for C7 at a PDF upload. -/
theorem non_image_rejected_before_inference_witness :
    ("image/".data).isPrefixOf (UploadFile.mk "application/pdf" 100 100).type.data = false ∧
    (handleFileChange (UploadFile.mk "application/pdf" 100 100) = UploadOutcome.rejected ∧
      gradeCalls (handleFileChange (UploadFile.mk "application/pdf" 100 100)) = 0) :=
  ⟨by rfl, non_image_rejected_before_inference (UploadFile.mk "application/pdf" 100 100) (by rfl)⟩

/-- C5: for every image-typed upload, regardless of input format and of
whether a resize occurred, the normalizer re-encodes as JPEG at the
fixed quality 0.8, and the single encoded artifact is handed out as both
the transport payload and the display source. -/
theorem normalizer_single_jpeg_artifact (f : UploadFile)
    (h : ("image/".data).isPrefixOf f.type.data = true) :
    ∃ d : EncodedImage, handleFileChange f = UploadOutcome.processed d d ∧
      d.mime = "image/jpeg" ∧ d.quality = 0.8 ∧
      (d.width, d.height) = resizeDims f.width f.height := by
  refine ⟨canvasToDataURL "image/jpeg" QUALITY (resizeDims f.width f.height).1
    (resizeDims f.width f.height).2, ?_, rfl, rfl, rfl⟩
  unfold handleFileChange
  rw [h]
  simp

/-- Witness for C5 at a PNG upload that needs no resize. -/
theorem normalizer_single_jpeg_artifact_witness :
    ("image/".data).isPrefixOf (UploadFile.mk "image/png" 800 600).type.data = true ∧
    (∃ d : EncodedImage,
      handleFileChange (UploadFile.mk "image/png" 800 600) = UploadOutcome.processed d d ∧
      d.mime = "image/jpeg" ∧ d.quality = 0.8 ∧
      (d.width, d.height) = resizeDims 800 600) :=
  ⟨by rfl, normalizer_single_jpeg_artifact (UploadFile.mk "image/png" 800 600) (by rfl)⟩

/-- C4: the coordinate mapper returns exactly top = ymin/10,
left = xmin/10, height = (ymax − ymin)/10, width = (xmax − xmin)/10 (as
percentages), and in particular maps (0,0,1000,1000) to the full-image
box and (500,500,600,600) to (50%,50%,10%,10%). -/
theorem getBoxStyle_formula :
    (∀ ymin xmin ymax xmax : ℚ,
      getBoxStyle (ymin, xmin, ymax, xmax) =
        ⟨ymin / 10, xmin / 10, (ymax - ymin) / 10, (xmax - xmin) / 10⟩) ∧
    getBoxStyle (0, 0, 1000, 1000) = ⟨0, 0, 100, 100⟩ ∧
    getBoxStyle (500, 500, 600, 600) = ⟨50, 50, 10, 10⟩ := by
  refine ⟨fun _ _ _ _ => rfl, ?_, ?_⟩ <;>
    · simp only [getBoxStyle, BoxStyle.mk.injEq]
      norm_num

/-! ### Resize-policy claims -/

/-- `Math.round (n / d)` is within half a unit of the exact quotient:
`2·n − d ≤ 2·round·d ≤ 2·n + d`. -/
lemma jsRound_bounds (n d : Nat) (hd : 0 < d) :
    2 * n ≤ 2 * (jsRound n d * d) + d ∧ 2 * (jsRound n d * d) ≤ 2 * n + d := by
  have h1 := Nat.div_mul_le_self (2 * n + d) (2 * d)
  have hdm := Nat.div_add_mod (2 * n + d) (2 * d)
  have hm : (2 * n + d) % (2 * d) < 2 * d := Nat.mod_lt _ (by omega)
  have hq : jsRound n d = (2 * n + d) / (2 * d) := rfl
  rw [hq]
  have e1 : (2 * n + d) / (2 * d) * (2 * d) = 2 * ((2 * n + d) / (2 * d) * d) := by
    ring
  have e2 : 2 * d * ((2 * n + d) / (2 * d)) = 2 * ((2 * n + d) / (2 * d) * d) := by
    ring
  rw [e1] at h1
  rw [e2] at hdm
  obtain ⟨A, hA⟩ : ∃ A, (2 * n + d) / (2 * d) * d = A := ⟨_, rfl⟩
  rw [hA] at h1 hdm ⊢
  obtain ⟨R, hR⟩ : ∃ R, (2 * n + d) % (2 * d) = R := ⟨_, rfl⟩
  rw [hR] at hdm hm
  clear hA hR hq e1 e2
  omega

/-- Counterexample to C3 as stated: at source dimensions 3000 × 2 the
resize yields 1024 × 1, whose aspect ratio 1024 differs from the source
ratio 1500 by 476 — far beyond a one-pixel tolerance. -/
theorem resize_ratio_gap_exceeds_one :
    resizeDims 3000 2 = (1024, 1) ∧
    ¬ |((resizeDims 3000 2).1 : ℚ) / ((resizeDims 3000 2).2 : ℚ) - 3000 / 2| ≤ 1 := by
  have h : resizeDims 3000 2 = (1024, 1) := by rfl
  refine ⟨h, ?_⟩
  rw [h]
  norm_num

/-- C3 amended: if `max(W,H) ≤ 1024` the dimensions are unchanged;
otherwise the larger dimension becomes exactly 1024 and the other
becomes the JS-rounded scaled value, which is within half a pixel of the
exact ratio-scaled value (`|2·d′·L − 2·d·1024| ≤ L` for larger source
dimension `L`), and `max(W′,H′) = 1024`.  The resize is a pure function
of the source dimensions, hence deterministic.  (The claim's plain ratio
bound `|W′/H′ − W/H| ≤ 1` fails for extreme aspect ratios — see the
counterexample.) -/
theorem resizeDims_policy (w h : Nat) (hw : 0 < w) (hh : 0 < h) :
    (max w h ≤ MAX_WIDTH → resizeDims w h = (w, h)) ∧
    (MAX_WIDTH < max w h →
      max (resizeDims w h).1 (resizeDims w h).2 = MAX_WIDTH ∧
      (h < w →
        resizeDims w h = (MAX_WIDTH, jsRound (h * MAX_WIDTH) w) ∧
        2 * (h * MAX_WIDTH) ≤ 2 * ((resizeDims w h).2 * w) + w ∧
        2 * ((resizeDims w h).2 * w) ≤ 2 * (h * MAX_WIDTH) + w) ∧
      (w ≤ h →
        resizeDims w h = (jsRound (w * MAX_WIDTH) h, MAX_WIDTH) ∧
        2 * (w * MAX_WIDTH) ≤ 2 * ((resizeDims w h).1 * h) + h ∧
        2 * ((resizeDims w h).1 * h) ≤ 2 * (w * MAX_WIDTH) + h)) := by
  have hM : MAX_WIDTH = 1024 := rfl
  constructor
  · intro hle
    rw [hM] at hle
    unfold resizeDims
    simp only [hM]
    split_ifs with h1 h2 h3 <;> first | rfl | (exfalso; omega)
  · intro hgt
    rw [hM] at hgt
    rcases Nat.lt_or_ge h w with hhw | hhw
    · have hw1024 : MAX_WIDTH < w := by rw [hM]; omega
      have hr : resizeDims w h = (MAX_WIDTH, jsRound (h * MAX_WIDTH) w) := by
        unfold resizeDims
        rw [if_pos hhw, if_pos hw1024]
      have hb := jsRound_bounds (h * MAX_WIDTH) w hw
      have hqle : jsRound (h * MAX_WIDTH) w ≤ 1024 := by
        have hlt : (2 * (h * MAX_WIDTH) + w) / (2 * w) < 1025 := by
          rw [Nat.div_lt_iff_lt_mul (by omega : 0 < 2 * w)]
          rw [hM]
          have hmul : h * 1024 ≤ (w - 1) * 1024 :=
            Nat.mul_le_mul_right _ (by omega)
          have hexp : (w - 1) * 1024 = w * 1024 - 1024 := by
            rw [Nat.sub_mul, Nat.one_mul]
          omega
        have hjr : jsRound (h * MAX_WIDTH) w = (2 * (h * MAX_WIDTH) + w) / (2 * w) := rfl
        rw [← hjr] at hlt
        omega
      have hqle' : jsRound (h * MAX_WIDTH) w ≤ MAX_WIDTH := by
        rw [hM]
        exact hqle
      refine ⟨?_, ?_, ?_⟩
      · rw [hr]
        show max MAX_WIDTH (jsRound (h * MAX_WIDTH) w) = MAX_WIDTH
        exact max_eq_left hqle'
      · intro _
        refine ⟨hr, ?_, ?_⟩
        · rw [hr]
          show 2 * (h * MAX_WIDTH) ≤ 2 * (jsRound (h * MAX_WIDTH) w * w) + w
          exact hb.1
        · rw [hr]
          show 2 * (jsRound (h * MAX_WIDTH) w * w) ≤ 2 * (h * MAX_WIDTH) + w
          exact hb.2
      · intro hwh
        exfalso
        omega
    · have hh1024 : MAX_WIDTH < h := by rw [hM]; omega
      have hr : resizeDims w h = (jsRound (w * MAX_WIDTH) h, MAX_WIDTH) := by
        unfold resizeDims
        rw [if_neg (by omega : ¬ h < w), if_pos hh1024]
      have hb := jsRound_bounds (w * MAX_WIDTH) h hh
      have hqle : jsRound (w * MAX_WIDTH) h ≤ 1024 := by
        have hlt : (2 * (w * MAX_WIDTH) + h) / (2 * h) < 1025 := by
          rw [Nat.div_lt_iff_lt_mul (by omega : 0 < 2 * h)]
          rw [hM]
          have hmul : w * 1024 ≤ h * 1024 := Nat.mul_le_mul_right _ hhw
          omega
        have hjr : jsRound (w * MAX_WIDTH) h = (2 * (w * MAX_WIDTH) + h) / (2 * h) := rfl
        rw [← hjr] at hlt
        omega
      have hqle' : jsRound (w * MAX_WIDTH) h ≤ MAX_WIDTH := by
        rw [hM]
        exact hqle
      refine ⟨?_, ?_, ?_⟩
      · rw [hr]
        show max (jsRound (w * MAX_WIDTH) h) MAX_WIDTH = MAX_WIDTH
        exact max_eq_right hqle'
      · intro hwh
        exfalso
        omega
      · intro _
        refine ⟨hr, ?_, ?_⟩
        · rw [hr]
          show 2 * (w * MAX_WIDTH) ≤ 2 * (jsRound (w * MAX_WIDTH) h * h) + h
          exact hb.1
        · rw [hr]
          show 2 * (jsRound (w * MAX_WIDTH) h * h) ≤ 2 * (w * MAX_WIDTH) + h
          exact hb.2

/-- Witness for the amended C3 at a 2048 × 1536 source image. -/
theorem resizeDims_policy_witness :
    0 < 2048 ∧ 0 < 1536 ∧
    ((max 2048 1536 ≤ MAX_WIDTH → resizeDims 2048 1536 = (2048, 1536)) ∧
      (MAX_WIDTH < max 2048 1536 →
        max (resizeDims 2048 1536).1 (resizeDims 2048 1536).2 = MAX_WIDTH ∧
        (1536 < 2048 →
          resizeDims 2048 1536 = (MAX_WIDTH, jsRound (1536 * MAX_WIDTH) 2048) ∧
          2 * (1536 * MAX_WIDTH) ≤ 2 * ((resizeDims 2048 1536).2 * 2048) + 2048 ∧
          2 * ((resizeDims 2048 1536).2 * 2048) ≤ 2 * (1536 * MAX_WIDTH) + 2048) ∧
        (2048 ≤ 1536 →
          resizeDims 2048 1536 = (jsRound (2048 * MAX_WIDTH) 1536, MAX_WIDTH) ∧
          2 * (2048 * MAX_WIDTH) ≤ 2 * ((resizeDims 2048 1536).1 * 1536) + 1536 ∧
          2 * ((resizeDims 2048 1536).1 * 1536) ≤ 2 * (2048 * MAX_WIDTH) + 1536))) :=
  ⟨by decide, by decide, resizeDims_policy 2048 1536 (by decide) (by decide)⟩
